import Mathlib

/-!
Shallow embedding of `src/network/network_gamelist.cpp` (OpenTTD game-list
registry): the linked game list, the delayed-insertion queue, the requery
scheduler and the NewGRF compatibility rescan.

Modelling conventions:
* the intrusive singly linked lists (`NetworkGameList::next`, `GRFConfig::next`)
  become Lean `List`s kept in the same order;
* pointer identity of heap nodes becomes a `Nat` identifier (`id`), allocated
  from a fresh counter carried in the registry state;
* `uint8` arithmetic is `Nat` with an explicit `% 256`;
* the function-local `static uint8 requery_cnt` becomes a field of the state;
* external collaborators (`ParseConnectionString`/`GetAddressAsString`,
  `FindGRFConfig`, `FindUnknownGRFName`) become function parameters, and the
  fire-and-forget side effects (`UpdateNetworkGameWindow`,
  `NetworkRebuildHostList`, `InvalidateWindowClassesData`,
  `NetworkUDPQueryServer`) become emitted events.
-/

/-- Status of one GRF dependency descriptor (`GRFConfig::status`). -/
inductive GCStatus where
  | GCS_UNKNOWN
  | GCS_DISABLED
  | GCS_NOT_FOUND
  | GCS_INITIALISED
  | GCS_ACTIVATED
deriving DecidableEq

/-- Identity of a GRF: `GRFIdentifier` (grfid plus md5 checksum). -/
structure GRFIdentifier where
  grfid : Nat
  md5sum : List Nat
deriving DecidableEq

/-- One content-dependency descriptor of a listed server (`GRFConfig`). -/
structure GRFConfig where
  ident : GRFIdentifier
  name : String
  filename : String
  info : String
  status : GCStatus
deriving DecidableEq

/-- An entry of the local NewGRF catalog as returned by `FindGRFConfig`
(only the fields `NetworkAfterNewGRFScan` reads from the match). -/
structure CatalogGRF where
  filename : String
  name : String
  info : String
deriving DecidableEq

/-- The status snapshot of a server (`NetworkGameInfo`), restricted to the
fields this translation unit touches. -/
structure NetworkGameInfo where
  server_name : String
  grfconfig : List GRFConfig
  version_compatible : Bool
  compatible : Bool
deriving DecidableEq

/-- Modelled from the spec: the value-initialised `NetworkGameInfo {}` written
by `item->info = {};`. The header defining `NetworkGameInfo` is not under
`src/`; per the data model an empty snapshot has an empty display name, no
dependency descriptors and cleared flags. -/
def emptyNetworkGameInfo : NetworkGameInfo :=
  { server_name := "", grfconfig := [], version_compatible := false, compatible := false }

/-- One node of the game list (`NetworkGameList`). The `id` field models the
node's heap address (pointer identity); `next` pointers are implicit in the
surrounding `List`. -/
structure NetworkGameList where
  id : Nat
  connection_string : String
  info : NetworkGameInfo
  online : Bool
  manually : Bool
  retries : Nat
deriving DecidableEq

/-- Modelled from the spec: the field initialisers of a freshly constructed
`NetworkGameList(resolved_connection_string)` node. The header
`network_gamelist.h` is not under `src/`; per §4.2 a new entry has empty
info, zero retries, `manually_added = false` (and §8: `online = false`). -/
def newServerEntry (id : Nat) (connection_string : String) : NetworkGameList :=
  { id := id
    connection_string := connection_string
    info := emptyNetworkGameInfo
    online := false
    manually := false
    retries := 0 }

/-- Fire-and-forget external side effects emitted by the registry code. -/
inductive NetEvent where
  /-- `UpdateNetworkGameWindow()` -/
  | updateNetworkGameWindow
  /-- `NetworkRebuildHostList()` -/
  | rebuildHostList
  /-- `InvalidateWindowClassesData(WC_NETWORK_WINDOW)` -/
  | invalidateNetworkWindowClasses
  /-- `NetworkUDPQueryServer(connection_string)`: modelled from the spec as
  the external `issue_status_query` collaborator (its definition lives in
  `network_udp.cpp`, not under `src/`), a fire-and-forget request. -/
  | udpQuery (connection_string : String)
deriving DecidableEq

/-- The mutable state of this translation unit: `_network_game_list` (as a
list in link order), a fresh-address counter for new nodes, and the
`static uint8 requery_cnt` of `NetworkGameListRequery`. -/
structure GameListState where
  list : List NetworkGameList
  nextId : Nat
  requery_cnt : Nat
deriving DecidableEq

/-- The scan of `NetworkGameListAddItem`'s for-loop: first node whose
`connection_string` equals the resolved key. -/
def findEntry : List NetworkGameList → String → Option NetworkGameList
  | [], _ => none
  | it :: rest, key => if it.connection_string = key then some it else findEntry rest key

/-- In-place mutation through a node pointer: rewrite the node(s) carrying
the given identity. -/
def updateEntry (st : GameListState) (id : Nat) (f : NetworkGameList → NetworkGameList) :
    GameListState :=
  { st with list := st.list.map fun it => if it.id = id then f it else it }

def MAX_GAME_LIST_REQUERY_COUNT : Nat := 10
def REQUERY_EVERY_X_GAMELOOPS : Nat := 60
def REFRESH_GAMEINFO_X_REQUERIES : Nat := 50

/-- `NetworkGameListAddItem`: resolve the connection string (the composition
`ParseConnectionString(s, NETWORK_DEFAULT_PORT).GetAddressAsString(false)` is
the external `resolve` parameter), return an existing entry with that key, or
append a fresh node at the tail and report a window update. -/
def NetworkGameListAddItem (resolve : String → String) (st : GameListState)
    (connection_string : String) : GameListState × NetworkGameList × List NetEvent :=
  let resolved_connection_string := resolve connection_string
  match findEntry st.list resolved_connection_string with
  | some item => (st, item, [])
  | none =>
    let item := newServerEntry st.nextId resolved_connection_string
    ({ st with list := st.list ++ [item], nextId := st.nextId + 1 },
      item, [NetEvent.updateNetworkGameWindow])

/-- The loop of `NetworkGameListRemoveItem`: unlink the first node with the
given identity, keeping the rest; `none` when no node matches. -/
def removeFirstById : List NetworkGameList → Nat → Option (List NetworkGameList)
  | [], _ => none
  | it :: rest, id =>
    if it.id = id then some rest
    else (removeFirstById rest id).map (fun l => it :: l)

/-- `NetworkGameListRemoveItem`: unlink and free the node if present (its GRF
list dies with it), then rebuild the host list and update the window; when the
pointer matches no node the function falls off the loop and does nothing. -/
def NetworkGameListRemoveItem (st : GameListState) (removeId : Nat) :
    GameListState × List NetEvent :=
  match removeFirstById st.list removeId with
  | some l => ({ st with list := l }, [NetEvent.rebuildHostList, NetEvent.updateNetworkGameWindow])
  | none => (st, [])

/-- `NetworkGameListAddItemDelayed`: the successful iteration of the
compare-and-swap loop links the item in front of the current head. -/
def NetworkGameListAddItemDelayed (item : NetworkGameList)
    (queue : List NetworkGameList) : List NetworkGameList :=
  item :: queue

/-- The body of `NetworkGameListHandleDelayedInsert`'s loop for one popped
record `ins`: find-or-create the registry entry for its connection string;
if the entry's server name is still empty, drop its GRF list, reset its info
to the record's server name alone and force it offline; fold in `manually`;
rebuild the host list when the entry is now manual; update the window. -/
def mergeDelayedItem (resolve : String → String) (st : GameListState)
    (ins : NetworkGameList) : GameListState × List NetEvent :=
  let r := NetworkGameListAddItem resolve st ins.connection_string
  let st1 := r.1
  let item := r.2.1
  let upd : NetworkGameList → NetworkGameList := fun it =>
    let it := if it.info.server_name = "" then
        { it with
          info := { emptyNetworkGameInfo with server_name := ins.info.server_name }
          online := false }
      else it
    { it with manually := it.manually || ins.manually }
  let st2 := updateEntry st1 item.id upd
  let evs2 := (if (upd item).manually then [NetEvent.rebuildHostList] else [])
      ++ [NetEvent.updateNetworkGameWindow]
  (st2, r.2.2 ++ evs2)

/-- `NetworkGameListHandleDelayedInsert`: repeatedly pop the head of the
delayed-insertion stack and merge it, until the stack is empty. Besides the
final state it returns the trace of records merged (one per loop iteration,
in pop order) and the emitted events. -/
def NetworkGameListHandleDelayedInsert (resolve : String → String) :
    GameListState → List NetworkGameList →
      GameListState × List NetworkGameList × List NetEvent
  | st, [] => (st, [], [])
  | st, ins :: rest =>
    let r1 := mergeDelayedItem resolve st ins
    let r2 := NetworkGameListHandleDelayedInsert resolve r1.1 rest
    (r2.1, ins :: r2.2.1, r1.2 ++ r2.2.2)

/-- The drain algorithm as the spec words it: one single exchange takes the
whole pending list at once (leaving the queue empty), and the taken list is
then walked front to back, merging each record. Stated for comparison with
`NetworkGameListHandleDelayedInsert`. -/
def drainByExchangeSpec (resolve : String → String) (st : GameListState)
    (queue : List NetworkGameList) :
    GameListState × List NetworkGameList × List NetEvent :=
  let taken := queue
  let res := taken.foldl
    (fun acc ins =>
      let r := mergeDelayedItem resolve acc.1 ins
      (r.1, acc.2 ++ r.2))
    (st, ([] : List NetEvent))
  (res.1, taken, res.2)

/-- The per-entry body of `NetworkGameListRequery`'s for-loop: bump `retries`
(a `uint8`), skip when below the refresh threshold while online or at the
requery cap, otherwise query the server (external, fire-and-forget; the code
saves `retries` across the call because the collaborator mostly zeroes the
item) and restore `retries`, zeroed once it reached the refresh threshold. -/
def requeryVisitEntry (item : NetworkGameList) : NetworkGameList × List NetEvent :=
  let item := { item with retries := (item.retries + 1) % 256 }
  if item.retries < REFRESH_GAMEINFO_X_REQUERIES ∧
      (item.online ∨ item.retries ≥ MAX_GAME_LIST_REQUERY_COUNT) then
    (item, [])
  else
    let retries := item.retries
    ({ item with retries := if retries ≥ REFRESH_GAMEINFO_X_REQUERIES then 0 else retries },
      [NetEvent.udpQuery item.connection_string])

/-- `NetworkGameListRequery`'s for-loop over the whole game list. -/
def requeryVisitList : List NetworkGameList → List NetworkGameList × List NetEvent
  | [] => ([], [])
  | it :: rest =>
    let r := requeryVisitEntry it
    let rs := requeryVisitList rest
    (r.1 :: rs.1, r.2 ++ rs.2)

/-- `NetworkGameListRequery`: drain the delayed-insertion queue, bump the
static tick counter (`uint8`), return early while it is below
`REQUERY_EVERY_X_GAMELOOPS`, otherwise reset it and walk every entry. -/
def NetworkGameListRequery (resolve : String → String) (st : GameListState)
    (queue : List NetworkGameList) : GameListState × List NetEvent :=
  let d := NetworkGameListHandleDelayedInsert resolve st queue
  let st1 := d.1
  let cnt := (st1.requery_cnt + 1) % 256
  if cnt < REQUERY_EVERY_X_GAMELOOPS then
    ({ st1 with requery_cnt := cnt }, d.2.2)
  else
    let r := requeryVisitList st1.list
    ({ st1 with requery_cnt := 0, list := r.1 }, d.2.2 ++ r.2)

/-- The inner loop of `NetworkAfterNewGRFScan` over one entry's GRF list,
threading the entry's aggregate `compatible` flag: a missing GRF takes its
name from `FindUnknownGRFName`, becomes `GCS_NOT_FOUND` and forces the flag
to false; a found GRF copies filename, name and info from the catalog and
becomes `GCS_UNKNOWN`. -/
def reconcileGRFList (findGRF : GRFIdentifier → Option CatalogGRF)
    (findUnknownName : GRFIdentifier → Bool → String) :
    List GRFConfig → Bool → List GRFConfig × Bool
  | [], compatible => ([], compatible)
  | c :: rest, compatible =>
    match findGRF c.ident with
    | none =>
      let c := { c with name := findUnknownName c.ident true, status := GCStatus.GCS_NOT_FOUND }
      let r := reconcileGRFList findGRF findUnknownName rest false
      (c :: r.1, r.2)
    | some f =>
      let c := { c with
        filename := f.filename
        name := f.name
        info := f.info
        status := GCStatus.GCS_UNKNOWN }
      let r := reconcileGRFList findGRF findUnknownName rest compatible
      (c :: r.1, r.2)

/-- `NetworkAfterNewGRFScan`: for every entry reset `compatible` to
`version_compatible`, re-resolve every GRF descriptor against the local
catalog (`FindGRFConfig` with `FGCM_EXACT`), then invalidate the network
windows once. -/
def NetworkAfterNewGRFScan (findGRF : GRFIdentifier → Option CatalogGRF)
    (findUnknownName : GRFIdentifier → Bool → String) (st : GameListState) :
    GameListState × List NetEvent :=
  let items := st.list.map fun item =>
    let r := reconcileGRFList findGRF findUnknownName item.info.grfconfig
      item.info.version_compatible
    { item with info := { item.info with grfconfig := r.1, compatible := r.2 } }
  ({ st with list := items }, [NetEvent.invalidateNetworkWindowClasses])

/-- The state at program start: `_network_game_list = nullptr`, no node
allocated yet, `requery_cnt = 0`. -/
def initialGameListState : GameListState :=
  { list := [], nextId := 0, requery_cnt := 0 }

/-- States of the registry reachable by any sequence of the public
operations, each driven with arbitrary external collaborators, arguments
and pending queues. -/
inductive Reachable : GameListState → Prop where
  | init : Reachable initialGameListState
  | addOrGet (st : GameListState) (resolve : String → String) (cs : String) :
      Reachable st → Reachable (NetworkGameListAddItem resolve st cs).1
  | remove (st : GameListState) (removeId : Nat) :
      Reachable st → Reachable (NetworkGameListRemoveItem st removeId).1
  | drain (st : GameListState) (resolve : String → String) (queue : List NetworkGameList) :
      Reachable st → Reachable (NetworkGameListHandleDelayedInsert resolve st queue).1
  | tick (st : GameListState) (resolve : String → String) (queue : List NetworkGameList) :
      Reachable st → Reachable (NetworkGameListRequery resolve st queue).1
  | afterScan (st : GameListState) (findGRF : GRFIdentifier → Option CatalogGRF)
      (findUnknownName : GRFIdentifier → Bool → String) :
      Reachable st → Reachable (NetworkAfterNewGRFScan findGRF findUnknownName st).1

/-- A registry holding exactly one fresh entry, used to trace the requery
cadence of a single server. -/
def initialSingleEntryState (cs : String) : GameListState :=
  { list := [newServerEntry 0 cs], nextId := 1, requery_cnt := 0 }

/-- The registry after `t` game-loop ticks (each tick runs
`NetworkGameListRequery` with an empty delayed-insertion queue), starting
from the single never-responding entry. -/
def requeryTicks (resolve : String → String) (cs : String) : Nat → GameListState
  | 0 => initialSingleEntryState cs
  | t + 1 => (NetworkGameListRequery resolve (requeryTicks resolve cs t) []).1

/-- The events emitted by tick `t + 1` (the tick that moves the state from
`requeryTicks t` onwards). -/
def requeryTickEvents (resolve : String → String) (cs : String) (t : Nat) : List NetEvent :=
  (NetworkGameListRequery resolve (requeryTicks resolve cs t) []).2

/-- Number of status queries (`NetworkUDPQueryServer` calls) in a trace. -/
def countQueries (evs : List NetEvent) : Nat :=
  evs.countP fun e => match e with
    | NetEvent.udpQuery _ => true
    | _ => false

/-- Number of status queries issued during requery window `w` (windows are
numbered from 1; window `w` spans ticks `60*(w-1)+1 .. 60*w`). -/
def windowQueryCount (resolve : String → String) (cs : String) (w : Nat) : Nat :=
  ((List.range REQUERY_EVERY_X_GAMELOOPS).map fun i =>
    countQueries (requeryTickEvents resolve cs
      (REQUERY_EVERY_X_GAMELOOPS * (w - 1) + i))).sum

/-- A concrete dependency descriptor for counterexample states. -/
def exGRF : GRFConfig :=
  { ident := { grfid := 5, md5sum := [1, 2] }
    name := "grf"
    filename := "f.grf"
    info := ""
    status := GCStatus.GCS_UNKNOWN }

/-- A registry entry whose server name is still empty although it carries a
stale dependency list and is flagged online. -/
def exNamelessEntry : NetworkGameList :=
  { id := 0
    connection_string := "10.0.0.1:3979"
    info := { server_name := ""
              grfconfig := [exGRF]
              version_compatible := true
              compatible := true }
    online := true
    manually := false
    retries := 3 }

/-- A registry holding just `exNamelessEntry`. -/
def exNamelessState : GameListState :=
  { list := [exNamelessEntry], nextId := 1, requery_cnt := 0 }

/-- A pending record for the same address whose server name is itself still
unknown (empty). -/
def exNamelessRecord : NetworkGameList :=
  { id := 7
    connection_string := "10.0.0.1:3979"
    info := emptyNetworkGameInfo
    online := true
    manually := false
    retries := 0 }

/-- Two distinct pending records for the concurrency witness. -/
def exRecordA : NetworkGameList :=
  { id := 11
    connection_string := "a:1"
    info := emptyNetworkGameInfo
    online := false
    manually := false
    retries := 0 }

def exRecordB : NetworkGameList :=
  { id := 12
    connection_string := "b:2"
    info := emptyNetworkGameInfo
    online := false
    manually := true
    retries := 0 }

/-- An entry with a known (non-empty) server name, for the frame-effect
witness. -/
def exNamedEntry : NetworkGameList :=
  { id := 0
    connection_string := "10.0.0.2:3979"
    info := { server_name := "srv"
              grfconfig := [exGRF]
              version_compatible := true
              compatible := false }
    online := true
    manually := false
    retries := 5 }

/-- A registry holding just `exNamedEntry`. -/
def exNamedState : GameListState :=
  { list := [exNamedEntry], nextId := 1, requery_cnt := 0 }

/-- A pending record aimed at `exNamedEntry`, carrying payload (dependency
list, online flag, retries) that must never be merged. -/
def exPayloadRecord : NetworkGameList :=
  { id := 9
    connection_string := "10.0.0.2:3979"
    info := { server_name := "other"
              grfconfig := [exGRF, exGRF]
              version_compatible := false
              compatible := true }
    online := true
    manually := true
    retries := 9 }


/-- A second pending record agreeing with `exPayloadRecord` on connection
string, server name and `manually`, but with entirely different payload. -/
def exPayloadRecord2 : NetworkGameList :=
  { id := 30
    connection_string := "10.0.0.2:3979"
    info := { server_name := "other"
              grfconfig := []
              version_compatible := true
              compatible := false }
    online := false
    manually := true
    retries := 0 }

/-- The per-descriptor outcome of the compatibility rescan: a descriptor
missing from the catalog gets its name from the unknown-name cache and
status `GCS_NOT_FOUND`; a present one copies the catalog's filename, name
and info and gets status `GCS_UNKNOWN`. -/
def reconcileStep (findGRF : GRFIdentifier → Option CatalogGRF)
    (findUnknownName : GRFIdentifier → Bool → String) (c : GRFConfig) : GRFConfig :=
  match findGRF c.ident with
  | none => { c with name := findUnknownName c.ident true, status := GCStatus.GCS_NOT_FOUND }
  | some f =>
    { c with
      filename := f.filename
      name := f.name
      info := f.info
      status := GCStatus.GCS_UNKNOWN }

/-- The per-entry outcome of the compatibility rescan: every descriptor is
re-resolved by `reconcileStep` and the aggregate `compatible` flag equals
`version_compatible` AND-ed with "every descriptor is in the catalog". -/
def afterScanItemSpec (findGRF : GRFIdentifier → Option CatalogGRF)
    (findUnknownName : GRFIdentifier → Bool → String) (item : NetworkGameList) :
    NetworkGameList :=
  { item with
    info := { item.info with
      grfconfig := item.info.grfconfig.map (reconcileStep findGRF findUnknownName)
      compatible := item.info.version_compatible
        && item.info.grfconfig.all fun c => (findGRF c.ident).isSome } }

/-! ## Helper lemmas -/

theorem findEntry_eq_none {l : List NetworkGameList} {key : String} :
    findEntry l key = none ↔ ∀ it ∈ l, it.connection_string ≠ key := by
  induction l with
  | nil => simp [findEntry]
  | cons it rest ih =>
    by_cases h : it.connection_string = key <;> simp [findEntry, h, ih]

theorem findEntry_eq_some_mem {l : List NetworkGameList} {key : String}
    {e : NetworkGameList} (h : findEntry l key = some e) :
    e ∈ l ∧ e.connection_string = key := by
  induction l with
  | nil => simp [findEntry] at h
  | cons a rest ih =>
    by_cases ha : a.connection_string = key
    · simp [findEntry, ha] at h
      subst h
      exact ⟨by simp, ha⟩
    · rw [findEntry, if_neg ha] at h
      rcases ih h with ⟨h1, h2⟩
      exact ⟨by simp [h1], h2⟩

theorem findEntry_append_singleton {l : List NetworkGameList} {key : String}
    {it : NetworkGameList} (h : findEntry l key = none)
    (hit : it.connection_string = key) :
    findEntry (l ++ [it]) key = some it := by
  induction l with
  | nil => simp [findEntry, hit]
  | cons a rest ih =>
    rw [findEntry_eq_none] at h
    have ha : a.connection_string ≠ key := h a (by simp)
    have hrest : findEntry rest key = none := by
      rw [findEntry_eq_none]; exact fun x hx => h x (by simp [hx])
    simpa [findEntry, ha] using ih hrest

theorem removeFirstById_eq_none {l : List NetworkGameList} {id : Nat}
    (h : ∀ it ∈ l, it.id ≠ id) : removeFirstById l id = none := by
  induction l with
  | nil => rfl
  | cons a rest ih =>
    have ha : a.id ≠ id := h a (by simp)
    have : removeFirstById rest id = none := ih fun x hx => h x (by simp [hx])
    simp [removeFirstById, ha, this]

theorem drain_trace_eq (resolve : String → String) (st : GameListState)
    (queue : List NetworkGameList) :
    (NetworkGameListHandleDelayedInsert resolve st queue).2.1 = queue := by
  induction queue generalizing st with
  | nil => rfl
  | cons ins rest ih => simp [NetworkGameListHandleDelayedInsert, ih]

theorem drain_foldl_eq (resolve : String → String) (queue : List NetworkGameList)
    (st : GameListState) (evs0 : List NetEvent) :
    queue.foldl
      (fun acc ins =>
        let r := mergeDelayedItem resolve acc.1 ins
        (r.1, acc.2 ++ r.2)) (st, evs0)
      = ((NetworkGameListHandleDelayedInsert resolve st queue).1,
          evs0 ++ (NetworkGameListHandleDelayedInsert resolve st queue).2.2) := by
  induction queue generalizing st evs0 with
  | nil => simp [NetworkGameListHandleDelayedInsert]
  | cons ins rest ih =>
    simp [NetworkGameListHandleDelayedInsert, List.foldl_cons, ih]

theorem pushAll_eq_reverse (order : List NetworkGameList) (q : List NetworkGameList) :
    order.foldl (fun acc r => NetworkGameListAddItemDelayed r acc) q
      = order.reverse ++ q := by
  induction order generalizing q with
  | nil => simp
  | cons r rest ih => simp [NetworkGameListAddItemDelayed, ih]

/-! ## Claims -/

/-- C3. Drain is a single exchange: popping the pending records one at a time
and merging each (`NetworkGameListHandleDelayedInsert`) produces exactly the
final state, merge trace and event trace of the reference algorithm that
swaps out the whole pending list in one exchange and then walks it
(`drainByExchangeSpec`). -/
theorem drain_refines_single_exchange (resolve : String → String)
    (st : GameListState) (queue : List NetworkGameList) :
    NetworkGameListHandleDelayedInsert resolve st queue
      = drainByExchangeSpec resolve st queue := by
  have hf := drain_foldl_eq resolve queue st []
  have htr := drain_trace_eq resolve st queue
  simp only [drainByExchangeSpec, hf, List.nil_append]
  exact Prod.ext_iff.mpr ⟨rfl, Prod.ext_iff.mpr ⟨htr, rfl⟩⟩

/-- C4. Queue completeness: if each of N producers pushes exactly one record
(the pushes linearising in an arbitrary order, i.e. any permutation of the
records) and a single drain runs afterwards, the drain performs exactly N
merge operations and merges each pushed record exactly once — no record is
dropped. -/
theorem drain_queue_completeness (resolve : String → String) (st : GameListState)
    (recs order : List NetworkGameList) (h : order.Perm recs) :
    ((NetworkGameListHandleDelayedInsert resolve st
        (order.foldl (fun acc r => NetworkGameListAddItemDelayed r acc) [])).2.1).Perm recs
    ∧ (NetworkGameListHandleDelayedInsert resolve st
        (order.foldl (fun acc r => NetworkGameListAddItemDelayed r acc) [])).2.1.length
      = recs.length := by
  rw [drain_trace_eq, pushAll_eq_reverse]
  have hp : (order.reverse ++ []).Perm recs := by
    simpa using (List.reverse_perm order).trans h
  exact ⟨hp, hp.length_eq⟩

theorem drain_queue_completeness_witness :
    ([exRecordB, exRecordA] : List NetworkGameList).Perm [exRecordA, exRecordB]
    ∧ (((NetworkGameListHandleDelayedInsert (fun s => s) initialGameListState
        (([exRecordB, exRecordA] : List NetworkGameList).foldl
          (fun acc r => NetworkGameListAddItemDelayed r acc) [])).2.1).Perm
        [exRecordA, exRecordB]
      ∧ (NetworkGameListHandleDelayedInsert (fun s => s) initialGameListState
        (([exRecordB, exRecordA] : List NetworkGameList).foldl
          (fun acc r => NetworkGameListAddItemDelayed r acc) [])).2.1.length
        = ([exRecordA, exRecordB] : List NetworkGameList).length) :=
  ⟨by decide,
    drain_queue_completeness (fun s => s) initialGameListState
      [exRecordA, exRecordB] [exRecordB, exRecordA] (by decide)⟩

/-- C6. Idempotent add: two successive `NetworkGameListAddItem` calls with the
same connection string return the same entry, the second call leaves the
state untouched, and when the resolved address was absent the first call
appends exactly one fresh node at the tail — with empty info, zero retries
and `manually = false` — so the registry grows by exactly one overall. -/
theorem addItem_idempotent (resolve : String → String) (st : GameListState)
    (cs : String) :
    ((NetworkGameListAddItem resolve (NetworkGameListAddItem resolve st cs).1 cs).2.1
        = (NetworkGameListAddItem resolve st cs).2.1
      ∧ (NetworkGameListAddItem resolve (NetworkGameListAddItem resolve st cs).1 cs).1
        = (NetworkGameListAddItem resolve st cs).1)
    ∧ ((∀ it ∈ st.list, it.connection_string ≠ resolve cs) →
        (NetworkGameListAddItem resolve st cs).1.list
            = st.list ++ [newServerEntry st.nextId (resolve cs)]
          ∧ (NetworkGameListAddItem resolve
              (NetworkGameListAddItem resolve st cs).1 cs).1.list.length
            = st.list.length + 1
          ∧ (newServerEntry st.nextId (resolve cs)).info = emptyNetworkGameInfo
          ∧ (newServerEntry st.nextId (resolve cs)).retries = 0
          ∧ (newServerEntry st.nextId (resolve cs)).manually = false) := by
  cases hfind : findEntry st.list (resolve cs) with
  | some item =>
    refine ⟨⟨by simp [NetworkGameListAddItem, hfind], by simp [NetworkGameListAddItem, hfind]⟩, ?_⟩
    intro habs
    rcases findEntry_eq_some_mem hfind with ⟨hmem, hcs⟩
    exact absurd hcs (habs item hmem)
  | none =>
    have hfind2 : findEntry (st.list ++ [newServerEntry st.nextId (resolve cs)])
        (resolve cs) = some (newServerEntry st.nextId (resolve cs)) :=
      findEntry_append_singleton hfind rfl
    refine ⟨⟨?_, ?_⟩, fun _ => ⟨by simp [NetworkGameListAddItem, hfind], ?_, rfl, rfl, rfl⟩⟩
    · simp [NetworkGameListAddItem, hfind, hfind2]
    · simp [NetworkGameListAddItem, hfind, hfind2]
    · simp [NetworkGameListAddItem, hfind, hfind2]

theorem addItem_idempotent_witness :
    (∀ it ∈ initialGameListState.list, it.connection_string ≠ (fun s : String => s) "a:1")
    ∧ ((NetworkGameListAddItem (fun s => s) initialGameListState "a:1").1.list
        = initialGameListState.list
            ++ [newServerEntry initialGameListState.nextId ((fun s : String => s) "a:1")]
      ∧ (NetworkGameListAddItem (fun s => s)
          (NetworkGameListAddItem (fun s => s) initialGameListState "a:1").1 "a:1").1.list.length
        = initialGameListState.list.length + 1
      ∧ (newServerEntry initialGameListState.nextId ((fun s : String => s) "a:1")).info
        = emptyNetworkGameInfo
      ∧ (newServerEntry initialGameListState.nextId ((fun s : String => s) "a:1")).retries = 0
      ∧ (newServerEntry initialGameListState.nextId ((fun s : String => s) "a:1")).manually
        = false) :=
  ⟨by decide,
    (addItem_idempotent (fun s => s) initialGameListState "a:1").2 (by decide)⟩

/-- C9. Removing an absent entry is a silent no-op: when no node of the
registry has the identity of the node to remove, `NetworkGameListRemoveItem`
returns the state unchanged and emits no host-list rebuild and no window
update. -/
theorem remove_absent_silent_noop (st : GameListState) (removeId : Nat)
    (h : ∀ it ∈ st.list, it.id ≠ removeId) :
    NetworkGameListRemoveItem st removeId = (st, []) := by
  unfold NetworkGameListRemoveItem
  rw [removeFirstById_eq_none h]

theorem remove_absent_silent_noop_witness :
    (∀ it ∈ exNamelessState.list, it.id ≠ 42)
    ∧ NetworkGameListRemoveItem exNamelessState 42 = (exNamelessState, []) :=
  ⟨by decide, remove_absent_silent_noop exNamelessState 42 (by decide)⟩


theorem reconcileGRFList_eq (findGRF : GRFIdentifier → Option CatalogGRF)
    (findUnknownName : GRFIdentifier → Bool → String) (l : List GRFConfig) (b : Bool) :
    reconcileGRFList findGRF findUnknownName l b
      = (l.map (reconcileStep findGRF findUnknownName),
          b && l.all fun c => (findGRF c.ident).isSome) := by
  induction l generalizing b with
  | nil => simp [reconcileGRFList]
  | cons c rest ih =>
    cases hc : findGRF c.ident with
    | none => simp [reconcileGRFList, hc, reconcileStep, ih]
    | some f => simp [reconcileGRFList, hc, reconcileStep, ih, Bool.and_assoc]

theorem afterScan_fst (findGRF : GRFIdentifier → Option CatalogGRF)
    (findUnknownName : GRFIdentifier → Bool → String) (st : GameListState) :
    (NetworkAfterNewGRFScan findGRF findUnknownName st).1
      = { st with list := st.list.map (afterScanItemSpec findGRF findUnknownName) } := by
  simp only [NetworkAfterNewGRFScan]
  congr 1
  apply List.map_congr_left
  intro item _
  simp [afterScanItemSpec, reconcileGRFList_eq]

theorem afterScan_snd (findGRF : GRFIdentifier → Option CatalogGRF)
    (findUnknownName : GRFIdentifier → Bool → String) (st : GameListState) :
    (NetworkAfterNewGRFScan findGRF findUnknownName st).2
      = [NetEvent.invalidateNetworkWindowClasses] := by
  simp only [NetworkAfterNewGRFScan]

theorem reconcileStep_ident (findGRF : GRFIdentifier → Option CatalogGRF)
    (findUnknownName : GRFIdentifier → Bool → String) (c : GRFConfig) :
    (reconcileStep findGRF findUnknownName c).ident = c.ident := by
  unfold reconcileStep
  cases findGRF c.ident <;> rfl

theorem reconcileStep_idem (findGRF : GRFIdentifier → Option CatalogGRF)
    (findUnknownName : GRFIdentifier → Bool → String) (c : GRFConfig) :
    reconcileStep findGRF findUnknownName (reconcileStep findGRF findUnknownName c)
      = reconcileStep findGRF findUnknownName c := by
  unfold reconcileStep
  cases hc : findGRF c.ident with
  | none => simp [hc]
  | some f => simp [hc]

theorem afterScanItemSpec_idem (findGRF : GRFIdentifier → Option CatalogGRF)
    (findUnknownName : GRFIdentifier → Bool → String) (item : NetworkGameList) :
    afterScanItemSpec findGRF findUnknownName (afterScanItemSpec findGRF findUnknownName item)
      = afterScanItemSpec findGRF findUnknownName item := by
  simp [afterScanItemSpec, List.map_map, List.all_map, Function.comp_def,
    reconcileStep_idem, reconcileStep_ident]

/-- C7. Compatibility reconciliation postcondition: after
`NetworkAfterNewGRFScan`, every entry's aggregate `compatible` flag equals
its `version_compatible` flag AND-ed with "every dependency descriptor has an
exact catalog match"; a descriptor without a match has its name taken from
the unknown-name cache and status `GCS_NOT_FOUND` (forcing the aggregate
false); a matched descriptor copies the catalog's filename, name and info
and gets status `GCS_UNKNOWN`. One batched window invalidation is emitted. -/
theorem afterScan_postcondition (findGRF : GRFIdentifier → Option CatalogGRF)
    (findUnknownName : GRFIdentifier → Bool → String) (st : GameListState) :
    (NetworkAfterNewGRFScan findGRF findUnknownName st).1.list
        = st.list.map (fun item =>
          { item with
            info := { item.info with
              grfconfig := item.info.grfconfig.map fun c =>
                match findGRF c.ident with
                | none => { c with
                    name := findUnknownName c.ident true
                    status := GCStatus.GCS_NOT_FOUND }
                | some f => { c with
                    filename := f.filename
                    name := f.name
                    info := f.info
                    status := GCStatus.GCS_UNKNOWN }
              compatible := item.info.version_compatible
                && item.info.grfconfig.all fun c => (findGRF c.ident).isSome } })
      ∧ (NetworkAfterNewGRFScan findGRF findUnknownName st).2
        = [NetEvent.invalidateNetworkWindowClasses] := by
  refine ⟨?_, afterScan_snd findGRF findUnknownName st⟩
  rw [afterScan_fst]
  exact rfl

/-- C8. Reconciliation idempotence: with the catalog and the unknown-name
cache behaving as pure functions of their arguments, running
`NetworkAfterNewGRFScan` twice leaves every entry and every dependency
descriptor exactly as after the first run. -/
theorem afterScan_idempotent (findGRF : GRFIdentifier → Option CatalogGRF)
    (findUnknownName : GRFIdentifier → Bool → String) (st : GameListState) :
    (NetworkAfterNewGRFScan findGRF findUnknownName
        (NetworkAfterNewGRFScan findGRF findUnknownName st).1).1
      = (NetworkAfterNewGRFScan findGRF findUnknownName st).1 := by
  rw [afterScan_fst, afterScan_fst]
  simp only [List.map_map]
  congr 1
  apply List.map_congr_left
  intro item _
  exact afterScanItemSpec_idem findGRF findUnknownName item

theorem map_eq_self_of_noop {α : Type} (l : List α) (f : α → α)
    (h : ∀ x ∈ l, f x = x) : l.map f = l := by
  induction l with
  | nil => rfl
  | cons a rest ih => simp [h a (by simp), ih fun x hx => h x (by simp [hx])]

theorem mergeDelayedItem_found_list (resolve : String → String) (st : GameListState)
    (ins e : NetworkGameList)
    (hfind : findEntry st.list (resolve ins.connection_string) = some e) :
    (mergeDelayedItem resolve st ins).1.list
      = st.list.map fun it =>
          if it.id = e.id then
            (if it.info.server_name = "" then
              { it with
                info := { emptyNetworkGameInfo with server_name := ins.info.server_name }
                online := false
                manually := it.manually || ins.manually }
            else { it with manually := it.manually || ins.manually })
          else it := by
  simp only [mergeDelayedItem, NetworkGameListAddItem, hfind, updateEntry]
  apply List.map_congr_left
  intro it _
  by_cases hid : it.id = e.id
  · by_cases hname : it.info.server_name = "" <;> simp [hid, hname]
  · simp [hid]

theorem mergeDelayedItem_found_events (resolve : String → String) (st : GameListState)
    (ins e : NetworkGameList)
    (hfind : findEntry st.list (resolve ins.connection_string) = some e) :
    (mergeDelayedItem resolve st ins).2
      = (if e.manually || ins.manually then [NetEvent.rebuildHostList] else [])
          ++ [NetEvent.updateNetworkGameWindow] := by
  simp only [mergeDelayedItem, NetworkGameListAddItem, hfind, updateEntry]
  by_cases hname : e.info.server_name = "" <;> simp [hname]

theorem mergeDelayedItem_created_list (resolve : String → String) (st : GameListState)
    (ins : NetworkGameList)
    (hfind : findEntry st.list (resolve ins.connection_string) = none)
    (hfresh : ∀ it ∈ st.list, it.id ≠ st.nextId) :
    (mergeDelayedItem resolve st ins).1.list
      = st.list ++
          [{ newServerEntry st.nextId (resolve ins.connection_string) with
              info := { emptyNetworkGameInfo with server_name := ins.info.server_name }
              online := false
              manually := ins.manually }] := by
  simp only [mergeDelayedItem, NetworkGameListAddItem, hfind, updateEntry]
  rw [List.map_append]
  have h1 := map_eq_self_of_noop (l := st.list)
  rw [h1]
  · simp [newServerEntry, emptyNetworkGameInfo]
  · intro it hit
    simp [newServerEntry, hfresh it hit]

theorem mergeDelayedItem_created_events (resolve : String → String) (st : GameListState)
    (ins : NetworkGameList)
    (hfind : findEntry st.list (resolve ins.connection_string) = none) :
    (mergeDelayedItem resolve st ins).2
      = [NetEvent.updateNetworkGameWindow]
          ++ (if ins.manually then [NetEvent.rebuildHostList] else [])
          ++ [NetEvent.updateNetworkGameWindow] := by
  simp only [mergeDelayedItem, NetworkGameListAddItem, hfind, updateEntry]
  simp [newServerEntry, emptyNetworkGameInfo]

/-- C2 (amended). Merge placeholder side effect: for a drained pending record,
the matched entry's dependency list is cleared (replaced by the empty reset
info holding only the record's server name) and its `online` flag is forced
false if and only if the entry's server name was previously empty — whether
or not the record's own name is known; a record with an unknown (empty) name
still triggers the reset. A created entry starts with an empty name, so it
always takes the reset branch. -/
theorem merge_clear_iff_name_empty (resolve : String → String) (st : GameListState)
    (ins : NetworkGameList) :
    (∀ e : NetworkGameList, findEntry st.list (resolve ins.connection_string) = some e →
      (mergeDelayedItem resolve st ins).1.list
        = st.list.map fun it =>
            if it.id = e.id then
              (if it.info.server_name = "" then
                { it with
                  info := { emptyNetworkGameInfo with server_name := ins.info.server_name }
                  online := false
                  manually := it.manually || ins.manually }
              else { it with manually := it.manually || ins.manually })
            else it)
    ∧ (findEntry st.list (resolve ins.connection_string) = none →
        (∀ it ∈ st.list, it.id ≠ st.nextId) →
        (mergeDelayedItem resolve st ins).1.list
          = st.list ++
              [{ newServerEntry st.nextId (resolve ins.connection_string) with
                  info := { emptyNetworkGameInfo with server_name := ins.info.server_name }
                  online := false
                  manually := ins.manually }]) :=
  ⟨fun e hfind => mergeDelayedItem_found_list resolve st ins e hfind,
    fun hfind hfresh => mergeDelayedItem_created_list resolve st ins hfind hfresh⟩

/-- C2, counterexample to the claim as stated: the pending record's server
name is unknown (empty), so per the claim the entry must keep its dependency
list and `online` flag; but because the entry's own name is empty the code
clears the list and forces `online` from `true` to `false` anyway — the
"record's name is known" half of the claimed iff-condition is not checked by
the code. -/
theorem merge_clear_counterexample :
    exNamelessRecord.info.server_name = ""
    ∧ exNamelessState.list.map (fun it => it.online) = [true]
    ∧ exNamelessState.list.map (fun it => it.info.grfconfig) ≠ [[]]
    ∧ (mergeDelayedItem (fun s => s) exNamelessState exNamelessRecord).1.list.map
        (fun it => it.online) = [false]
    ∧ (mergeDelayedItem (fun s => s) exNamelessState exNamelessRecord).1.list.map
        (fun it => it.info.grfconfig) = [[]] := by decide

theorem merge_clear_iff_name_empty_witness :
    (findEntry exNamelessState.list ((fun s : String => s) exNamelessRecord.connection_string)
        = some exNamelessEntry)
    ∧ (mergeDelayedItem (fun s => s) exNamelessState exNamelessRecord).1.list
        = exNamelessState.list.map fun it =>
            if it.id = exNamelessEntry.id then
              (if it.info.server_name = "" then
                { it with
                  info := { emptyNetworkGameInfo with
                    server_name := exNamelessRecord.info.server_name }
                  online := false
                  manually := it.manually || exNamelessRecord.manually }
              else { it with manually := it.manually || exNamelessRecord.manually })
            else it :=
  ⟨by decide,
    (merge_clear_iff_name_empty (fun s => s) exNamelessState exNamelessRecord).1
      exNamelessEntry (by decide)⟩

/-- C10. Merge discards the pending record's status: when the matched entry
already has a non-empty server name, the merge leaves its whole info
(name, dependency descriptors, compatibility flags), `online` flag and retry
count unchanged, only OR-ing in the record's `manually` flag; and the merge
reads nothing of the record beyond its connection string, server name and
`manually` flag, so the dependency list, online flag and compatibility data
carried by a pending record are never merged into the registry. -/
theorem merge_named_entry_frame (resolve : String → String) (st : GameListState)
    (ins : NetworkGameList) :
    (∀ e : NetworkGameList, findEntry st.list (resolve ins.connection_string) = some e →
      e.info.server_name ≠ "" →
      (mergeDelayedItem resolve st ins).1.list
        = st.list.map fun it =>
            if it.id = e.id ∧ it.info.server_name ≠ "" then
              { it with manually := it.manually || ins.manually }
            else if it.id = e.id then
              { it with
                info := { emptyNetworkGameInfo with server_name := ins.info.server_name }
                online := false
                manually := it.manually || ins.manually }
            else it)
    ∧ (∀ ins2 : NetworkGameList,
        ins2.connection_string = ins.connection_string →
        ins2.info.server_name = ins.info.server_name →
        ins2.manually = ins.manually →
        mergeDelayedItem resolve st ins2 = mergeDelayedItem resolve st ins) := by
  constructor
  · intro e hfind _
    rw [mergeDelayedItem_found_list resolve st ins e hfind]
    apply List.map_congr_left
    intro it _
    by_cases hid : it.id = e.id
    · by_cases hname : it.info.server_name = "" <;> simp [hid, hname]
    · simp [hid]
  · intro ins2 h1 h2 h3
    simp only [mergeDelayedItem]
    rw [h1, h2, h3]

theorem merge_named_entry_frame_witness :
    (findEntry exNamedState.list ((fun s : String => s) exPayloadRecord.connection_string)
        = some exNamedEntry)
    ∧ exNamedEntry.info.server_name ≠ ""
    ∧ (mergeDelayedItem (fun s => s) exNamedState exPayloadRecord).1.list
        = exNamedState.list.map (fun it =>
            if it.id = exNamedEntry.id ∧ it.info.server_name ≠ "" then
              { it with manually := it.manually || exPayloadRecord.manually }
            else if it.id = exNamedEntry.id then
              { it with
                info := { emptyNetworkGameInfo with
                  server_name := exPayloadRecord.info.server_name }
                online := false
                manually := it.manually || exPayloadRecord.manually }
            else it)
    ∧ exPayloadRecord2.connection_string = exPayloadRecord.connection_string
    ∧ exPayloadRecord2.info.server_name = exPayloadRecord.info.server_name
    ∧ exPayloadRecord2.manually = exPayloadRecord.manually
    ∧ mergeDelayedItem (fun s => s) exNamedState exPayloadRecord2
        = mergeDelayedItem (fun s => s) exNamedState exPayloadRecord :=
  ⟨by decide, by decide,
    (merge_named_entry_frame (fun s => s) exNamedState exPayloadRecord).1
      exNamedEntry (by decide) (by decide),
    by decide, by decide, by decide,
    (merge_named_entry_frame (fun s => s) exNamedState exPayloadRecord).2
      exPayloadRecord2 (by decide) (by decide) (by decide)⟩

theorem keys_updateEntry (st : GameListState) (id : Nat) (f : NetworkGameList → NetworkGameList)
    (hf : ∀ it, (f it).connection_string = it.connection_string) :
    (updateEntry st id f).list.map (fun it => it.connection_string)
      = st.list.map (fun it => it.connection_string) := by
  simp only [updateEntry, List.map_map]
  apply List.map_congr_left
  intro it _
  by_cases h : it.id = id <;> simp [h, hf]

theorem addItem_keys_nodup (resolve : String → String) (st : GameListState) (cs : String)
    (h : (st.list.map fun it => it.connection_string).Nodup) :
    ((NetworkGameListAddItem resolve st cs).1.list.map fun it => it.connection_string).Nodup := by
  cases hfind : findEntry st.list (resolve cs) with
  | some item => simpa [NetworkGameListAddItem, hfind] using h
  | none =>
    have habs : ∀ it ∈ st.list, it.connection_string ≠ resolve cs :=
      findEntry_eq_none.mp hfind
    simp [NetworkGameListAddItem, hfind, newServerEntry, List.nodup_append, h]
    intro x hx hcs
    exact habs x hx hcs

theorem merge_keys (resolve : String → String) (st : GameListState) (ins : NetworkGameList) :
    (mergeDelayedItem resolve st ins).1.list.map (fun it => it.connection_string)
      = (NetworkGameListAddItem resolve st ins.connection_string).1.list.map
          (fun it => it.connection_string) := by
  simp only [mergeDelayedItem]
  apply keys_updateEntry
  intro it
  by_cases hname : it.info.server_name = "" <;> simp [hname]

theorem drain_keys_nodup (resolve : String → String) (st : GameListState)
    (queue : List NetworkGameList)
    (h : (st.list.map fun it => it.connection_string).Nodup) :
    (((NetworkGameListHandleDelayedInsert resolve st queue).1.list.map
        fun it => it.connection_string)).Nodup := by
  induction queue generalizing st with
  | nil => simpa [NetworkGameListHandleDelayedInsert] using h
  | cons ins rest ih =>
    simp only [NetworkGameListHandleDelayedInsert]
    apply ih
    rw [merge_keys]
    exact addItem_keys_nodup resolve st ins.connection_string h

theorem requeryVisitEntry_cs (it : NetworkGameList) :
    (requeryVisitEntry it).1.connection_string = it.connection_string := by
  simp only [requeryVisitEntry]
  split <;> rfl

theorem requeryVisitList_keys (l : List NetworkGameList) :
    (requeryVisitList l).1.map (fun it => it.connection_string)
      = l.map (fun it => it.connection_string) := by
  induction l with
  | nil => rfl
  | cons it rest ih => simp [requeryVisitList, requeryVisitEntry_cs, ih]

theorem requery_keys_nodup (resolve : String → String) (st : GameListState)
    (queue : List NetworkGameList)
    (h : (st.list.map fun it => it.connection_string).Nodup) :
    ((NetworkGameListRequery resolve st queue).1.list.map
        fun it => it.connection_string).Nodup := by
  have hd := drain_keys_nodup resolve st queue h
  simp only [NetworkGameListRequery]
  split
  · simpa using hd
  · simpa [requeryVisitList_keys] using hd

theorem removeFirstById_sublist {l : List NetworkGameList} {id : Nat}
    {l2 : List NetworkGameList} (h : removeFirstById l id = some l2) :
    l2.Sublist l := by
  induction l generalizing l2 with
  | nil => simp [removeFirstById] at h
  | cons a rest ih =>
    by_cases ha : a.id = id
    · simp [removeFirstById, ha] at h
      subst h
      exact List.sublist_cons_self a rest
    · simp [removeFirstById, ha] at h
      rcases h with ⟨l3, h3, rfl⟩
      exact (ih h3).cons₂ a

theorem remove_keys_nodup (st : GameListState) (removeId : Nat)
    (h : (st.list.map fun it => it.connection_string).Nodup) :
    ((NetworkGameListRemoveItem st removeId).1.list.map
        fun it => it.connection_string).Nodup := by
  cases hrem : removeFirstById st.list removeId with
  | none => simpa [NetworkGameListRemoveItem, hrem] using h
  | some l2 =>
    simp only [NetworkGameListRemoveItem, hrem]
    exact h.sublist ((removeFirstById_sublist hrem).map _)

theorem scan_keys_nodup (findGRF : GRFIdentifier → Option CatalogGRF)
    (findUnknownName : GRFIdentifier → Bool → String) (st : GameListState)
    (h : (st.list.map fun it => it.connection_string).Nodup) :
    ((NetworkAfterNewGRFScan findGRF findUnknownName st).1.list.map
        fun it => it.connection_string).Nodup := by
  rw [afterScan_fst]
  simpa [List.map_map, afterScanItemSpec, Function.comp_def] using h

/-- C5. Registry key uniqueness: in every state reachable by any sequence of
the public operations (add-or-get, remove, drain-and-merge, requery tick,
NewGRF rescan) no two registry nodes carry the same resolved connection
string; and when an equal resolved key is already present,
`NetworkGameListAddItem` returns that existing node and changes nothing. -/
theorem registry_keys_unique (st : GameListState) (h : Reachable st) :
    (st.list.map fun it => it.connection_string).Nodup
    ∧ (∀ (resolve : String → String) (cs : String) (e : NetworkGameList),
        findEntry st.list (resolve cs) = some e →
        NetworkGameListAddItem resolve st cs = (st, e, [])) := by
  constructor
  · induction h with
    | init => simp [initialGameListState]
    | addOrGet st resolve cs _ ih => exact addItem_keys_nodup resolve st cs ih
    | remove st removeId _ ih => exact remove_keys_nodup st removeId ih
    | drain st resolve queue _ ih => exact drain_keys_nodup resolve st queue ih
    | tick st resolve queue _ ih => exact requery_keys_nodup resolve st queue ih
    | afterScan st findGRF findUnknownName _ ih =>
      exact scan_keys_nodup findGRF findUnknownName st ih
  · intro resolve cs e hfind
    simp [NetworkGameListAddItem, hfind]

theorem registry_keys_unique_witness :
    Reachable (NetworkGameListAddItem (fun s => s) initialGameListState "a:1").1
    ∧ (((NetworkGameListAddItem (fun s => s) initialGameListState "a:1").1.list.map
        fun it => it.connection_string).Nodup
      ∧ (∀ (resolve : String → String) (cs : String) (e : NetworkGameList),
          findEntry (NetworkGameListAddItem (fun s => s) initialGameListState "a:1").1.list
              (resolve cs) = some e →
          NetworkGameListAddItem resolve
              (NetworkGameListAddItem (fun s => s) initialGameListState "a:1").1 cs
            = ((NetworkGameListAddItem (fun s => s) initialGameListState "a:1").1, e, []))) :=
  ⟨Reachable.addOrGet initialGameListState (fun s => s) "a:1" Reachable.init,
    registry_keys_unique _
      (Reachable.addOrGet initialGameListState (fun s => s) "a:1" Reachable.init)⟩

theorem requeryTicks_closed (resolve : String → String) (cs : String) (t : Nat) :
    requeryTicks resolve cs t
      = { list := [{ newServerEntry 0 cs with retries := t / 60 % 50 }]
          nextId := 1
          requery_cnt := t % 60 } := by
  induction t with
  | zero => simp [requeryTicks, initialSingleEntryState, newServerEntry]
  | succ t ih =>
    have hm1 : (t % 60 + 1) % 256 = t % 60 + 1 := by omega
    have hm2 : (t / 60 % 50 + 1) % 256 = t / 60 % 50 + 1 := by omega
    rw [requeryTicks, ih]
    simp only [NetworkGameListRequery, NetworkGameListHandleDelayedInsert,
      requeryVisitList, requeryVisitEntry, REQUERY_EVERY_X_GAMELOOPS,
      MAX_GAME_LIST_REQUERY_COUNT, REFRESH_GAMEINFO_X_REQUERIES, newServerEntry,
      hm1, hm2]
    split_ifs with h1 h2 h3 <;>
        simp [GameListState.mk.injEq, List.cons.injEq, NetworkGameList.mk.injEq] <;>
      omega

theorem requeryTickEvents_formula (resolve : String → String) (cs : String) (t : Nat) :
    requeryTickEvents resolve cs t
      = if (t + 1) % 60 = 0 ∧ ((t + 1) / 60 % 50 = 0
            ∨ (1 ≤ (t + 1) / 60 % 50 ∧ (t + 1) / 60 % 50 ≤ 9))
        then [NetEvent.udpQuery cs] else [] := by
  have hm1 : (t % 60 + 1) % 256 = t % 60 + 1 := by omega
  have hm2 : (t / 60 % 50 + 1) % 256 = t / 60 % 50 + 1 := by omega
  rw [requeryTickEvents, requeryTicks_closed]
  simp only [NetworkGameListRequery, NetworkGameListHandleDelayedInsert,
    requeryVisitList, requeryVisitEntry, REQUERY_EVERY_X_GAMELOOPS,
    MAX_GAME_LIST_REQUERY_COUNT, REFRESH_GAMEINFO_X_REQUERIES, newServerEntry,
    hm1, hm2]
  split_ifs with h1 h2 h3 h4 h5 <;>
    first
      | omega
      | rfl
      | (simp_all
         omega)

theorem countQueries_query_list (cs : String) :
    countQueries [NetEvent.udpQuery cs] = 1 := by
  simp [countQueries]

theorem windowQueryCount_formula (resolve : String → String) (cs : String) (w : Nat)
    (hw : 1 ≤ w) :
    windowQueryCount resolve cs w
      = if w % 50 = 0 ∨ (1 ≤ w % 50 ∧ w % 50 ≤ 9) then 1 else 0 := by
  unfold windowQueryCount
  have hmap : (List.range REQUERY_EVERY_X_GAMELOOPS).map (fun i =>
      countQueries (requeryTickEvents resolve cs (REQUERY_EVERY_X_GAMELOOPS * (w - 1) + i)))
      = (List.range REQUERY_EVERY_X_GAMELOOPS).map (fun i =>
        if i = 59 then (if w % 50 = 0 ∨ (1 ≤ w % 50 ∧ w % 50 ≤ 9) then 1 else 0) else 0) := by
    apply List.map_congr_left
    intro i hi
    rw [List.mem_range] at hi
    rw [requeryTickEvents_formula]
    by_cases h59 : i = 59
    · subst h59
      have hq : (REQUERY_EVERY_X_GAMELOOPS * (w - 1) + 59 + 1) % 60 = 0 := by
        simp only [REQUERY_EVERY_X_GAMELOOPS]; omega
      have hw2 : (REQUERY_EVERY_X_GAMELOOPS * (w - 1) + 59 + 1) / 60 = w := by
        simp only [REQUERY_EVERY_X_GAMELOOPS]; omega
      rw [hw2]
      by_cases hcond : w % 50 = 0 ∨ (1 ≤ w % 50 ∧ w % 50 ≤ 9)
      · rw [if_pos ⟨hq, hcond⟩, if_pos hcond, if_pos rfl, countQueries_query_list]
      · rw [if_neg ?_, if_neg hcond, if_pos rfl]
        · simp [countQueries]
        · intro hc
          exact hcond hc.2
    · have hq : ¬ ((REQUERY_EVERY_X_GAMELOOPS * (w - 1) + i + 1) % 60 = 0) := by
        simp only [REQUERY_EVERY_X_GAMELOOPS] at hi ⊢; omega
      rw [if_neg ?_, if_neg h59]
      · simp [countQueries]
      · intro hc
        exact hq hc.1
  rw [hmap]
  have h59lt : (59 : Nat) < REQUERY_EVERY_X_GAMELOOPS := by
    simp [REQUERY_EVERY_X_GAMELOOPS]
  rw [show REQUERY_EVERY_X_GAMELOOPS = 59 + 1 from rfl, List.range_succ, List.map_append,
    List.sum_append]
  have hzero : ((List.range 59).map (fun i =>
      if i = 59 then (if w % 50 = 0 ∨ (1 ≤ w % 50 ∧ w % 50 ≤ 9) then 1 else 0) else 0)).sum
      = 0 := by
    apply List.sum_eq_zero
    intro x hx
    rw [List.mem_map] at hx
    rcases hx with ⟨i, hi, rfl⟩
    rw [List.mem_range] at hi
    rw [if_neg (by omega)]
  rw [hzero]
  simp

/-- C1, counterexample to the claim as stated: with window = 60 ticks,
cap = 10 and full-refresh = 50, a never-responding entry is NOT queried once
per window for each of the first 10 windows: window 10 raises the retry
counter to the cap (10), which satisfies the skip condition
`retries < 50 && retries >= 10`, so window 10 issues no query — only
windows 1..9 do. -/
theorem requery_cadence_counterexample :
    ¬ (∀ w : Nat, 1 ≤ w → w ≤ 10 → windowQueryCount (fun s => s) "s" w = 1) := by
  intro h
  have h10 := h 10 (by norm_num) (by norm_num)
  rw [windowQueryCount_formula (fun s => s) "s" 10 (by norm_num)] at h10
  norm_num at h10

/-- C1 (amended). Retry cadence of a never-responding entry, from a retry
counter of zero: after `t` ticks the counter is `t / 60 % 50`; tick `t + 1`
issues a query iff it ends a window (`(t+1) % 60 = 0`) whose index
`w = (t+1)/60` has `w % 50` in `1..9` or `w % 50 = 0`; hence each 50-window
cycle queries once per window in windows 1..9 (the 10th window reaches the
cap and is skipped), stays silent through window 49, and queries again at
window 50, where the counter resets to zero and the cadence repeats. -/
theorem requery_cadence (resolve : String → String) (cs : String) (t w : Nat)
    (hw : 1 ≤ w) :
    (requeryTicks resolve cs t).list.map (fun it => it.retries) = [t / 60 % 50]
    ∧ requeryTickEvents resolve cs t
        = (if (t + 1) % 60 = 0 ∧ ((t + 1) / 60 % 50 = 0
              ∨ (1 ≤ (t + 1) / 60 % 50 ∧ (t + 1) / 60 % 50 ≤ 9))
          then [NetEvent.udpQuery cs] else [])
    ∧ windowQueryCount resolve cs w
        = (if w % 50 = 0 ∨ (1 ≤ w % 50 ∧ w % 50 ≤ 9) then 1 else 0) := by
  refine ⟨?_, requeryTickEvents_formula resolve cs t,
    windowQueryCount_formula resolve cs w hw⟩
  rw [requeryTicks_closed]
  simp

theorem requery_cadence_witness :
    (1 ≤ 50)
    ∧ ((requeryTicks (fun s => s) "s" 599).list.map (fun it => it.retries)
        = [599 / 60 % 50]
      ∧ requeryTickEvents (fun s => s) "s" 599
          = (if (599 + 1) % 60 = 0 ∧ ((599 + 1) / 60 % 50 = 0
                ∨ (1 ≤ (599 + 1) / 60 % 50 ∧ (599 + 1) / 60 % 50 ≤ 9))
            then [NetEvent.udpQuery "s"] else [])
      ∧ windowQueryCount (fun s => s) "s" 50
          = (if 50 % 50 = 0 ∨ (1 ≤ 50 % 50 ∧ 50 % 50 ≤ 9) then 1 else 0)) :=
  ⟨by norm_num, requery_cadence (fun s => s) "s" 599 50 (by norm_num)⟩
